import Mathlib

/-
Shallow embedding of the `filtro_ppg` BPM-estimation scripts
(`src/scripts/calculate_bpm_vfinal.py`, `calculate_bpm_fft_ppg_fft_imu_1.py`,
`calculate_bpm_fft_ppg_fft_imu_2.py`, `calculate_bpm_from_peaks.py`,
`calculate_bpm_with_nlms.py`).

Signals are lists of real numbers (IMU samples are `Fin 3 → ℝ` triples);
floating-point arithmetic is modelled by exact real arithmetic.
NumPy/SciPy library calls used by the scripts (`np.fft.rfft`, `np.hanning`,
`scipy.signal.detrend`, `scipy.signal.find_peaks`, `np.median`, ...) are
embedded by their documented algorithms.
-/

namespace FiltroPpg

/-! ### Sliding-window start positions

Every script drives its analysis with
`for i in range(0, len(signal) - window_samples, step_samples)`.
`window_starts n w s` is the list of values taken by `i`.  Python's
`range(0, stop, s)` with `stop <= 0` is empty, which matches truncated
subtraction on ℕ. -/

/-- The start indices produced by `range(0, n - w, s)` in increasing order. -/
def window_starts (n w s : ℕ) : List ℕ :=
  (List.range ((n - w + s - 1) / s)).map (fun j => j * s)

/-! ### Artifact classifiers

`calculate_bpm_fft_ppg_fft_imu_1.py` (naive policy) runs, with
`is_artifact` initially `False`:
```
if abs(ppg_freq - motion_freq) < exclusion_threshold_hz: is_artifact = True
if abs(ppg_freq - 2 * motion_freq) < exclusion_threshold_hz: is_artifact = True
```
`calculate_bpm_vfinal.py` / `calculate_bpm_fft_ppg_fft_imu_2.py`
(power-tie-break policy) additionally gate each branch with
`if motion_power * POWER_RATIO_THRESHOLD > ppg_power`.
The defs below are the final value of `is_artifact` after the two `if`s. -/

/-- Naive policy: final value of `is_artifact` in `calculate_bpm_fft_ppg_fft_imu_1.py`. -/
def artifact_naive (ppg_freq motion_freq thr : ℝ) : Prop :=
  (False ∨ |ppg_freq - motion_freq| < thr) ∨ |ppg_freq - 2 * motion_freq| < thr

/-- Power-tie-break policy: final value of `is_artifact` in
`calculate_bpm_vfinal.py` (lines 137-147). -/
def artifact_power_tiebreak (ppg_freq ppg_power motion_freq motion_power thr ratio : ℝ) :
    Prop :=
  (False ∨ (|ppg_freq - motion_freq| < thr ∧ motion_power * ratio > ppg_power)) ∨
    (|ppg_freq - 2 * motion_freq| < thr ∧ motion_power * ratio > ppg_power)

/-! ### Motion magnitude reducer

`imu_magnitude = np.sqrt(np.sum(imu_window**2, axis=1))` with the three
axes as columns. -/

/-- Per-sample Euclidean magnitude of a 3-axis window. -/
noncomputable def imu_magnitude (w : List (Fin 3 → ℝ)) : List ℝ :=
  w.map (fun v => Real.sqrt (∑ a : Fin 3, v a ^ 2))

/-! ### NLMS adaptive canceller (`adaptive_nlms_filter` in
`calculate_bpm_with_nlms.py`)

```
weights = np.zeros(filter_order); cleaned_signal = np.zeros(n); epsilon = 1e-6
for i in range(filter_order, n_samples):
    ref_window = reference_signal[i - filter_order : i][::-1]
    predicted_noise = np.dot(weights, ref_window)
    error = primary_signal[i] - predicted_noise
    cleaned_signal[i] = error
    energy = np.sum(ref_window**2)
    step_size = learning_rate / (energy + epsilon)
    weights = weights + step_size * error * ref_window
```
The defs are generic over a linear ordered field. -/

/-- `np.dot` for equal-length 1-D vectors. -/
def dot {α : Type} [LinearOrderedField α] (a b : List α) : α :=
  (List.zipWith (· * ·) a b).sum

/-- `reference_signal[i - filter_order : i][::-1]`. -/
def nlms_ref_window {α : Type} [LinearOrderedField α]
    (reference : List α) (order i : ℕ) : List α :=
  ((reference.drop (i - order)).take order).reverse

/-- One weight update: `weights + learning_rate / (energy + 1e-6) * error * ref_window`. -/
def nlms_update {α : Type} [LinearOrderedField α]
    (w r : List α) (rate err : α) : List α :=
  List.zipWith (fun wj rj => wj + rate / ((r.map (fun x => x ^ 2)).sum + 1e-6) * err * rj)
    w r

/-- The loop body of `adaptive_nlms_filter`, iterated over the index list,
carrying the weight vector and emitting `cleaned_signal[i]` for each index. -/
def nlms_loop {α : Type} [LinearOrderedField α]
    (primary reference : List α) (order : ℕ) (rate : α) :
    List ℕ → List α → List α
  | [], _ => []
  | i :: rest, w =>
    let r := nlms_ref_window reference order i
    let e := primary.getD i 0 - dot w r
    e :: nlms_loop primary reference order rate rest (nlms_update w r rate e)

/-- `adaptive_nlms_filter`: the first `min order n` samples of `cleaned_signal`
are never written and stay `0`; indices `order, order+1, ..., n-1` are filled
by the loop. -/
def adaptive_nlms_filter {α : Type} [LinearOrderedField α]
    (primary reference : List α) (order : ℕ) (rate : α) : List α :=
  List.replicate (min order primary.length) 0 ++
    nlms_loop primary reference order rate
      (List.range' order (primary.length - order)) (List.replicate order 0)

/-- Weight vector of the claim's recurrence after `k` processed samples:
`nlms_weights p r o rate 0 = zeros o` and sample `o + k` updates
`nlms_weights (k+1) = nlms_update (nlms_weights k) r_(o+k) rate e_(o+k)`
with `e_i = p[i] - dot w r_i`. -/
def nlms_weights {α : Type} [LinearOrderedField α]
    (primary reference : List α) (order : ℕ) (rate : α) : ℕ → List α
  | 0 => List.replicate order 0
  | k + 1 =>
    let w := nlms_weights primary reference order rate k
    let r := nlms_ref_window reference order (order + k)
    nlms_update w r rate (primary.getD (order + k) 0 - dot w r)

/-- Weight iteration starting from `w` at sample index `start`, for `j`
further samples (proof-side reformulation of `nlms_weights` that peels
samples from the front, matching the loop). -/
def nlms_iter {α : Type} [LinearOrderedField α]
    (primary reference : List α) (order : ℕ) (rate : α) :
    List α → ℕ → ℕ → List α
  | w, _, 0 => w
  | w, start, j + 1 =>
    let r := nlms_ref_window reference order start
    nlms_iter primary reference order rate
      (nlms_update w r rate (primary.getD start 0 - dot w r)) (start + 1) j

/-! ### Spectral peak extraction

`get_dominant_freq_and_power` (`calculate_bpm_vfinal.py`) and
`get_dominant_freq` (`calculate_bpm_fft_ppg_fft_imu_1.py`) share the chain
`detrend` → Hann taper → `np.abs(np.fft.rfft(·, n=4096))` →
band mask → `np.argmax`. -/

/-- `scipy.signal.detrend(data)` (default `type='linear'`): subtract the
least-squares line fitted against sample indices `0, 1, ..., n-1`.
Written with the closed-form normal equations of the 1-D fit. -/
noncomputable def detrend (d : List ℝ) : List ℝ :=
  let N : ℝ := d.length
  let st : ℝ := ∑ n ∈ Finset.range d.length, (n : ℝ)
  let stt : ℝ := ∑ n ∈ Finset.range d.length, (n : ℝ) ^ 2
  let sy : ℝ := ∑ n ∈ Finset.range d.length, d.getD n 0
  let sty : ℝ := ∑ n ∈ Finset.range d.length, (n : ℝ) * d.getD n 0
  let slope : ℝ := (N * sty - st * sy) / (N * stt - st * st)
  let intercept : ℝ := (sy - slope * st) / N
  List.zipWith (fun (n : ℕ) y => y - (slope * (n : ℝ) + intercept)) (List.range d.length) d

/-- `np.hanning(M)`: `0.5 - 0.5*cos(2*pi*n/(M-1))` for `n = 0 .. M-1`.
(NumPy special-cases `M = 1` to `[1.]`; every call site in the scripts has
`M ≥ 10` or multiplies an all-zero signal, where the formula's value at
`M = 1` is irrelevant.) -/
noncomputable def hanning (M : ℕ) : List ℝ :=
  (List.range M).map
    (fun (n : ℕ) => 1 / 2 - 1 / 2 * Real.cos (2 * Real.pi * (n : ℝ) / ((M : ℝ) - 1)))

/-- `data_final = detrend(data) * np.hanning(len(data))` (elementwise). -/
noncomputable def data_final (d : List ℝ) : List ℝ :=
  List.zipWith (· * ·) (detrend d) (hanning (detrend d).length)

/-- Magnitude of bin `k` of `np.fft.rfft(d, n=4096)`: the input is truncated
or zero-padded to 4096 samples and `|X_k| = sqrt((Σ d_n cos θ_kn)² + (Σ d_n sin θ_kn)²)`
with `θ_kn = 2π k n / 4096`. -/
noncomputable def dft_mag (d : List ℝ) (k : ℕ) : ℝ :=
  Real.sqrt
    ((∑ n ∈ Finset.range (min d.length 4096),
        d.getD n 0 * Real.cos (2 * Real.pi * k * n / 4096)) ^ 2 +
      (∑ n ∈ Finset.range (min d.length 4096),
        d.getD n 0 * Real.sin (2 * Real.pi * k * n / 4096)) ^ 2)

/-- `np.fft.rfftfreq(4096, 1/fs)` at index `k`: the bin frequency `k * fs / 4096`. -/
noncomputable def rfft_freq (fs : ℝ) (k : ℕ) : ℝ := (k : ℝ) * fs / 4096

/-- `np.max` over a list (junk 0 on the empty list, guarded by `np.any` at the call site). -/
noncomputable def np_max (l : List ℝ) : ℝ := l.foldl max (l.headD 0)

open Classical in
/-- `np.argmax` over a list: the index of the first occurrence of the maximum
(`List.length` on the empty list, which is never consulted). -/
noncomputable def first_argmax (l : List ℝ) : ℕ :=
  l.findIdx (fun v => decide (np_max l ≤ v))

open Classical in
/-- The masked peak search shared by all scripts: indices of the `freq_mask`
(`min_hz <= xf <= max_hz` over the 2049 rfft bins), then, when the mask is
nonempty and `np.max(yf[freq_mask]) > 0`, the frequency and magnitude at the
first in-band argmax. -/
noncomputable def masked_peak (dfin : List ℝ) (fs min_hz max_hz : ℝ) : Option (ℝ × ℝ) :=
  let bins := (List.range (4096 / 2 + 1)).filter
    (fun k => decide (min_hz ≤ rfft_freq fs k ∧ rfft_freq fs k ≤ max_hz))
  let mags := bins.map (dft_mag dfin)
  if bins ≠ [] ∧ 0 < np_max mags then
    let kstar := bins.getD (first_argmax mags) 0
    some (rfft_freq fs kstar, dft_mag dfin kstar)
  else none

/-- `get_dominant_freq_and_power` of `calculate_bpm_vfinal.py`
(and `calculate_bpm_fft_ppg_fft_imu_2.py`): guard `len(data) < 10`, then the
detrend/Hann/rfft/mask chain. -/
noncomputable def get_dominant_freq_and_power (data : List ℝ) (fs min_hz max_hz : ℝ) :
    Option (ℝ × ℝ) :=
  if data.length < 10 then none
  else masked_peak (data_final data) fs min_hz max_hz

/-- `get_dominant_freq` of `calculate_bpm_fft_ppg_fft_imu_1.py`: same chain,
no length guard, returns only the peak frequency. -/
noncomputable def get_dominant_freq (data : List ℝ) (fs min_hz max_hz : ℝ) : Option ℝ :=
  (masked_peak (data_final data) fs min_hz max_hz).map Prod.fst

/-! ### Per-window processing and pipelines

`window_samples = int(WINDOW_SECONDS * FS) = int(8 * 500.0) = 4000`,
`step_samples = int(STEP_SECONDS * FS) = 500` in every script.
An absent IMU file (`has_imu = False`) is modelled by an `Option` IMU signal. -/

/-- The artifact validation step of `calculate_bpm_vfinal.py` for one window:
`False` without an IMU file or without a motion peak
(`if motion_freq and motion_power:` is float truthiness, i.e. both nonzero),
otherwise the power-tie-break classifier with threshold 0.25 Hz, ratio 2.0. -/
noncomputable def vfinal_artifact (pf pp : ℝ) : Option (List (Fin 3 → ℝ)) → Prop
  | none => False
  | some w =>
    match get_dominant_freq_and_power (imu_magnitude w) 500 1.0 3.5 with
    | none => False
    | some (mf, mp) =>
      (mf ≠ 0 ∧ mp ≠ 0) ∧ artifact_power_tiebreak pf pp mf mp 0.25 2.0

open Classical in
/-- One iteration of the `calculate_bpm_vfinal.py` sliding-window loop on an
extracted PPG/IMU window pair: candidate `bpm = ppg_freq * 60`, artifact
validation, result `some bpm` exactly when the window appends to
`final_results`. -/
noncomputable def vfinal_window (pw : List ℝ) (iw : Option (List (Fin 3 → ℝ))) :
    Option ℝ :=
  match get_dominant_freq_and_power pw 500 0.8 4.0 with
  | none => none
  | some (pf, pp) =>
    if vfinal_artifact pf pp iw then none else some (pf * 60)

/-- The `final_results` rows `(tempo_s, bpm)` of `calculate_bpm_vfinal.py`
for one record (`tempo_s = i / FS`). -/
noncomputable def vfinal_pipeline (ppg : List ℝ) (iw : Option (List (Fin 3 → ℝ))) :
    List (ℝ × ℝ) :=
  (window_starts ppg.length 4000 500).filterMap (fun i =>
    (vfinal_window ((ppg.drop i).take 4000) (iw.map (fun m => (m.drop i).take 4000))).map
      (fun b => ((i : ℝ) / 500, b)))

/-- The artifact validation step of `calculate_bpm_fft_ppg_fft_imu_1.py` for
one window: `False` without an IMU file or without a motion peak
(`if motion_freq:` is float truthiness), otherwise the naive classifier with
exclusion threshold 0.2 Hz. -/
noncomputable def fft1_artifact (pf : ℝ) : Option (List (Fin 3 → ℝ)) → Prop
  | none => False
  | some w =>
    match get_dominant_freq (imu_magnitude w) 500 1.0 3.5 with
    | none => False
    | some mf => mf ≠ 0 ∧ artifact_naive pf mf 0.2

open Classical in
/-- One iteration of the `calculate_bpm_fft_ppg_fft_imu_1.py` loop (naive
classifier, PPG band 0.8-3.0 Hz, motion band 1.0-3.5 Hz). -/
noncomputable def fft1_window (pw : List ℝ) (iw : Option (List (Fin 3 → ℝ))) :
    Option ℝ :=
  match get_dominant_freq pw 500 0.8 3.0 with
  | none => none
  | some pf =>
    if fft1_artifact pf iw then none else some (pf * 60)

/-- The `final_results` rows `(tempo_s, bpm)` of `calculate_bpm_fft_ppg_fft_imu_1.py`
for one record. -/
noncomputable def fft1_pipeline (ppg : List ℝ) (iw : Option (List (Fin 3 → ℝ))) :
    List (ℝ × ℝ) :=
  (window_starts ppg.length 4000 500).filterMap (fun i =>
    (fft1_window ((ppg.drop i).take 4000) (iw.map (fun m => (m.drop i).take 4000))).map
      (fun b => ((i : ℝ) / 500, b)))

/-! ### The end-to-end scenario of claim C1

8000 samples of a pure 2 Hz tone at 500 Hz (period 250 samples), paired with
an all-zero 3-axis IMU signal. -/

/-- The synthetic PPG input: `sin(2*pi*2*n/500)` for `n = 0 .. 7999`. -/
noncomputable def tone_signal : List ℝ :=
  (List.range 8000).map (fun (n : ℕ) => Real.sin (2 * Real.pi * 2 * (n : ℝ) / 500))

/-- The flat IMU input: 8000 all-zero 3-axis samples. -/
def zero_imu : List (Fin 3 → ℝ) :=
  List.replicate 8000 (fun _ => (0 : ℝ))

/-! ### A concrete 12-sample window with provable in-band energy

Used to exhibit a window on which the spectral peak extractor returns a
peak: the sample values sum to zero with zero first moment (so `detrend`
fixes the window), and alternate in sign so that the 4096-point rfft bin
2048 (the Nyquist bin, frequency 250 Hz) has a positive real part. -/

/-- Sample values of the 12-sample test window: `1` at 2 and 8, `-2` at 5. -/
noncomputable def c5_fun : ℕ → ℝ :=
  fun n => if n = 2 then 1 else if n = 5 then -2 else if n = 8 then 1 else 0

/-- The 12-sample test window `[0, 0, 1, 0, 0, -2, 0, 0, 1, 0, 0, 0]`. -/
noncomputable def c5_window : List ℝ := (List.range 12).map c5_fun

/-! ### `scipy.signal.find_peaks` (used by `calculate_bpm_from_peaks.py`)

`find_peaks(x, distance=MIN_DISTANCE_SAMPLES, prominence=MIN_PEAK_PROMINENCE)`:
local maxima with plateau handling (`_local_maxima_1d`), then the distance
filter (`_select_by_peak_distance`, processed in decreasing height order),
then the prominence filter (`_peak_prominences` with unrestricted window).
`np.argsort`'s tie order for equal heights is implementation-defined
(unstable quicksort); reversing a stable ascending sort is used here. -/

open Classical in
/-- Advance `i_ahead` over the plateau of value `v`: first index `j ≥ start`
with `j ≥ i_max` or `x[j] ≠ v`. -/
noncomputable def plateau_end (x : List ℝ) (i_max : ℕ) (v : ℝ) : ℕ → ℕ → ℕ
  | 0, j => j
  | fuel + 1, j =>
    if j < i_max ∧ x.getD j 0 = v then plateau_end x i_max v fuel (j + 1) else j

open Classical in
/-- The scan loop of `_local_maxima_1d`, from index `i` with the given fuel. -/
noncomputable def local_maxima_aux (x : List ℝ) (i_max : ℕ) : ℕ → ℕ → List ℕ
  | 0, _ => []
  | fuel + 1, i =>
    if i < i_max then
      if x.getD (i - 1) 0 < x.getD i 0 then
        let ia := plateau_end x i_max (x.getD i 0) x.length (i + 1)
        if x.getD ia 0 < x.getD i 0 then
          (i + (ia - 1)) / 2 :: local_maxima_aux x i_max fuel (ia + 1)
        else local_maxima_aux x i_max fuel (i + 1)
      else local_maxima_aux x i_max fuel (i + 1)
    else []

/-- `_local_maxima_1d(x)`: plateau midpoints of strict local maxima,
scanning `i = 1 .. len(x)-2`. -/
noncomputable def local_maxima (x : List ℝ) : List ℕ :=
  local_maxima_aux x (x.length - 1) x.length 1

/-- Clear every `keep` flag at a position `q ≠ pos` whose peak index is closer
than `d` to the peak at `pos` (the two contiguous while-loops of
`_select_by_peak_distance`, over an ascending peak list). -/
def distance_remove (peaks : List ℕ) (keep : List Bool) (pos d : ℕ) : List Bool :=
  (List.range keep.length).map (fun q =>
    if q ≠ pos ∧ max (peaks.getD q 0) (peaks.getD pos 0)
        - min (peaks.getD q 0) (peaks.getD pos 0) < d then false
    else keep.getD q true)

/-- Process the positions in priority order: a position still kept clears its
too-close neighbours. -/
def distance_loop (peaks : List ℕ) (d : ℕ) : List ℕ → List Bool → List Bool
  | [], keep => keep
  | pos :: rest, keep =>
    if keep.getD pos true then distance_loop peaks d rest (distance_remove peaks keep pos d)
    else distance_loop peaks d rest keep

open Classical in
/-- `_select_by_peak_distance(peaks, x[peaks], distance)`: positions are
processed from highest peak value to lowest. -/
noncomputable def select_by_peak_distance (x : List ℝ) (peaks : List ℕ) (d : ℕ) :
    List ℕ :=
  let order := ((List.range peaks.length).mergeSort
    (fun p q => decide (x.getD (peaks.getD p 0) 0 ≤ x.getD (peaks.getD q 0) 0))).reverse
  let keep := distance_loop peaks d order (List.replicate peaks.length true)
  ((List.range peaks.length).filter (fun q => keep.getD q true)).map (fun q => peaks.getD q 0)

open Classical in
/-- Left scan of `_peak_prominences`: minimum of `x` going down from index `i`
while `x[i] <= x[peak]`, stopping at the start of the signal or at the first
strictly higher sample. -/
noncomputable def prom_left_min (x : List ℝ) (pv : ℝ) : ℕ → ℝ → ℝ
  | 0, acc => if pv < x.getD 0 0 then acc else min acc (x.getD 0 0)
  | i + 1, acc =>
    if pv < x.getD (i + 1) 0 then acc
    else prom_left_min x pv i (min acc (x.getD (i + 1) 0))

open Classical in
/-- Right scan of `_peak_prominences`: minimum of `x` going up from index `i`
while `i < n` and `x[i] <= x[peak]`. -/
noncomputable def prom_right_min (x : List ℝ) (n : ℕ) (pv : ℝ) : ℕ → ℕ → ℝ → ℝ
  | 0, _, acc => acc
  | fuel + 1, i, acc =>
    if i < n ∧ ¬pv < x.getD i 0 then
      prom_right_min x n pv fuel (i + 1) (min acc (x.getD i 0))
    else acc

/-- `_peak_prominences` of one peak: `x[peak] - max(left_min, right_min)`. -/
noncomputable def prominence (x : List ℝ) (p : ℕ) : ℝ :=
  x.getD p 0 -
    max (prom_left_min x (x.getD p 0) p (x.getD p 0))
      (prom_right_min x x.length (x.getD p 0) x.length p (x.getD p 0))

open Classical in
/-- `scipy.signal.find_peaks(x, distance=d, prominence=pmin)[0]`. -/
noncomputable def find_peaks (x : List ℝ) (d : ℕ) (pmin : ℝ) : List ℕ :=
  ((select_by_peak_distance x (local_maxima x) d).filter
    (fun p => decide (pmin ≤ prominence x p)))

/-! ### The peak-counting pipeline (`calculate_bpm_from_peaks.py`)

Constants: `BPM_MIN, BPM_MAX = 50.0, 240.0`,
`MIN_DISTANCE_SAMPLES = int((60.0 / BPM_MAX) * FS) = 125`,
`MIN_PEAK_PROMINENCE = 0.1`. -/

/-- `MIN_DISTANCE_SAMPLES = int((60.0 / 240.0) * 500.0)`. -/
def MIN_DISTANCE_SAMPLES : ℕ := 125

/-- `get_motion_freq` of `calculate_bpm_from_peaks.py`: 3-axis magnitude,
mean subtraction (not a linear detrend), Hann taper, 4096-point rfft, band
1.0-4.0 Hz. -/
noncomputable def get_motion_freq (iw : List (Fin 3 → ℝ)) : Option ℝ :=
  let m := imu_magnitude iw
  let md := m.map (fun y => y - m.sum / (m.length : ℝ))
  (masked_peak (List.zipWith (· * ·) md (hanning md.length)) 500 1.0 4.0).map Prod.fst

open Classical in
/-- `np.median`: mean of the two middle elements of the sorted list for even
length, the middle element for odd length. -/
noncomputable def np_median (l : List ℝ) : ℝ :=
  let s := l.mergeSort (fun a b => decide (a ≤ b))
  if l.length % 2 = 1 then s.getD (l.length / 2) 0
  else (s.getD (l.length / 2 - 1) 0 + s.getD (l.length / 2) 0) / 2

/-- `instant_bpms = 60.0 / (np.diff(peaks) / FS)` over the detected peaks of a
PPG window. -/
noncomputable def instant_bpms (w : List ℝ) : List ℝ :=
  let peaks := find_peaks w MIN_DISTANCE_SAMPLES 0.1
  (peaks.zip peaks.tail).map (fun (pq : ℕ × ℕ) => 60 / (((pq.2 : ℝ) - (pq.1 : ℝ)) / 500))

open Classical in
/-- The `motion_bpm` of one window of `calculate_bpm_from_peaks.py`:
`None` without an IMU file or without a motion peak (`if motion_freq:` is
float truthiness), else `motion_freq * 60`. -/
noncomputable def peaks_motion_bpm : Option (List (Fin 3 → ℝ)) → Option ℝ
  | none => none
  | some w =>
    match get_motion_freq w with
    | none => none
    | some f => if f ≠ 0 then some (f * 60) else none

open Classical in
/-- The `validated_bpms` of one window of `calculate_bpm_from_peaks.py`
(`if motion_bpm:` is float truthiness). -/
noncomputable def peaks_validated (candidate_bpms : List ℝ) : Option ℝ → List ℝ
  | some mb =>
    if mb ≠ 0 then candidate_bpms.filter (fun b => decide (|b - mb| > 15))
    else candidate_bpms
  | none => candidate_bpms

open Classical in
/-- One iteration of the `calculate_bpm_from_peaks.py` sliding-window loop:
`some median_bpm` exactly when the window appends to `final_results`. -/
noncomputable def peaks_window (pw : List ℝ) (iw : Option (List (Fin 3 → ℝ))) :
    Option ℝ :=
  if (find_peaks pw MIN_DISTANCE_SAMPLES 0.1).length < 2 then none
  else
    let candidate_bpms := (instant_bpms pw).filter (fun b => decide (50 ≤ b ∧ b ≤ 240))
    if candidate_bpms = [] then none
    else
      let validated_bpms := peaks_validated candidate_bpms (peaks_motion_bpm iw)
      if 2 ≤ validated_bpms.length then some (np_median validated_bpms) else none

/-- The spec's description of the motion-derived BPM for a window: present
exactly when the motion-band search over the IMU window succeeds. -/
noncomputable def motion_bpm_of (iw : Option (List (Fin 3 → ℝ))) : Option ℝ :=
  iw.bind (fun w => (get_motion_freq w).map (· * 60))

/-- The spec's surviving instantaneous values of a window: instantaneous BPMs
in `[50, 240]`, and, when a motion-derived BPM exists, farther than 15 BPM
from it. -/
noncomputable def surviving_bpms (pw : List ℝ) (iw : Option (List (Fin 3 → ℝ))) :
    List ℝ :=
  let in_range := (instant_bpms pw).filter (fun b => decide (50 ≤ b ∧ b ≤ 240))
  match motion_bpm_of iw with
  | some mb => in_range.filter (fun b => decide (|b - mb| > 15))
  | none => in_range

/-! ### Helper lemmas: `np_max` and `np.argmax` -/

lemma init_le_foldl_max (l : List ℝ) (a : ℝ) : a ≤ l.foldl max a := by
  induction l generalizing a with
  | nil => exact le_rfl
  | cons x xs ih => exact le_trans (le_max_left a x) (ih (max a x))

lemma le_foldl_max (l : List ℝ) (a m : ℝ) (hm : m ∈ l) : m ≤ l.foldl max a := by
  induction l generalizing a with
  | nil => cases hm
  | cons x xs ih =>
    rcases List.mem_cons.mp hm with rfl | h
    · exact le_trans (le_max_right a m) (init_le_foldl_max xs _)
    · exact ih _ h

lemma foldl_max_mem (l : List ℝ) (a : ℝ) : l.foldl max a = a ∨ l.foldl max a ∈ l := by
  induction l generalizing a with
  | nil => exact Or.inl rfl
  | cons x xs ih =>
    rcases ih (max a x) with h | h
    · rcases max_cases a x with ⟨he, _⟩ | ⟨he, _⟩
      · exact Or.inl (by rw [List.foldl_cons, h, he])
      · exact Or.inr (by rw [List.foldl_cons, h, he]; exact List.mem_cons_self x xs)
    · exact Or.inr (List.mem_cons_of_mem x h)

lemma le_np_max (l : List ℝ) (m : ℝ) (hm : m ∈ l) : m ≤ np_max l :=
  le_foldl_max l _ m hm

lemma np_max_mem (l : List ℝ) (h : l ≠ []) : np_max l ∈ l := by
  rcases foldl_max_mem l (l.headD 0) with he | he
  · rw [np_max, he]; exact List.mem_of_mem_head? (by cases l <;> simp_all)
  · exact he

lemma np_max_le (l : List ℝ) (c : ℝ) (h : l ≠ []) (hc : ∀ m ∈ l, m ≤ c) :
    np_max l ≤ c :=
  hc _ (np_max_mem l h)

open Classical in
lemma first_argmax_lt_length (l : List ℝ) (h : l ≠ []) : first_argmax l < l.length :=
  List.findIdx_lt_length_of_exists
    ⟨np_max l, np_max_mem l h, by simp⟩

open Classical in
lemma getD_first_argmax (l : List ℝ) (h : l ≠ []) :
    l.getD (first_argmax l) 0 = np_max l := by
  have hlt : first_argmax l < l.length := first_argmax_lt_length l h
  have hp := List.findIdx_getElem (p := fun v => decide (np_max l ≤ v))
    (w := hlt)
  have hmem : l[first_argmax l] ∈ l := List.getElem_mem hlt
  have h1 : np_max l ≤ l[first_argmax l] := by simpa using hp
  have h2 : l[first_argmax l] ≤ np_max l := le_np_max l _ hmem
  rw [List.getD_eq_getElem l 0 hlt]
  exact le_antisymm h2 h1

/-! ### Helper lemmas: the masked peak search -/

lemma dft_mag_nonneg (d : List ℝ) (k : ℕ) : 0 ≤ dft_mag d k :=
  Real.sqrt_nonneg _

open Classical in
lemma mem_mask_bins (fs lo hi : ℝ) (k : ℕ) :
    k ∈ (List.range (4096 / 2 + 1)).filter
      (fun k => decide (lo ≤ rfft_freq fs k ∧ rfft_freq fs k ≤ hi)) ↔
    k ≤ 2048 ∧ lo ≤ rfft_freq fs k ∧ rfft_freq fs k ≤ hi := by
  rw [List.mem_filter, List.mem_range]
  simp [Nat.lt_succ_iff]

open Classical in
lemma masked_peak_eq_some (d : List ℝ) (fs lo hi f p : ℝ)
    (h : masked_peak d fs lo hi = some (f, p)) :
    ∃ k, k ≤ 2048 ∧ lo ≤ rfft_freq fs k ∧ rfft_freq fs k ≤ hi ∧
      f = rfft_freq fs k ∧ p = dft_mag d k ∧ 0 < p ∧
      ∀ k', k' ≤ 2048 → lo ≤ rfft_freq fs k' → rfft_freq fs k' ≤ hi →
        dft_mag d k' ≤ p := by
  rw [masked_peak] at h
  set bins := (List.range (4096 / 2 + 1)).filter
    (fun k => decide (lo ≤ rfft_freq fs k ∧ rfft_freq fs k ≤ hi)) with hbins
  set mags := bins.map (dft_mag d) with hmags
  by_cases hc : bins ≠ [] ∧ 0 < np_max mags
  · rw [if_pos hc] at h
    have hmne : mags ≠ [] := by
      simpa [hmags, List.map_eq_nil] using hc.1
    have hjlt : first_argmax mags < bins.length := by
      simpa [hmags] using first_argmax_lt_length mags hmne
    set j := first_argmax mags with hj
    have hkstar : bins.getD j 0 = bins[j] := List.getD_eq_getElem bins 0 hjlt
    have hmem : bins.getD j 0 ∈ bins := hkstar ▸ List.getElem_mem hjlt
    have hband := (mem_mask_bins fs lo hi (bins.getD j 0)).mp (hbins ▸ hmem)
    have hfp : f = rfft_freq fs (bins.getD j 0) ∧ p = dft_mag d (bins.getD j 0) := by
      have := h
      simp only [Option.some.injEq, Prod.mk.injEq] at this
      exact ⟨this.1.symm, this.2.symm⟩
    have hpmax : p = np_max mags := by
      have h1 : mags.getD j 0 = np_max mags := getD_first_argmax mags hmne
      have h2 : mags.getD j 0 = dft_mag d bins[j] := by
        rw [hmags, List.getD_eq_getElem _ 0 (by simpa using hjlt), List.getElem_map]
      rw [hfp.2, hkstar, ← h2, h1]
    refine ⟨bins.getD j 0, hband.1, hband.2.1, hband.2.2, hfp.1, hfp.2, ?_, ?_⟩
    · rw [hpmax]; exact hc.2
    · intro k' hk' hlo' hhi'
      have hmem' : k' ∈ bins := (mem_mask_bins fs lo hi k').mpr ⟨hk', hlo', hhi'⟩
      have : dft_mag d k' ∈ mags := List.mem_map_of_mem (dft_mag d) hmem'
      rw [hpmax]
      exact le_np_max mags _ this
  · rw [if_neg hc] at h
    cases h

open Classical in
lemma masked_peak_isSome (d : List ℝ) (fs lo hi : ℝ) (k : ℕ)
    (hk : k ≤ 2048) (hlo : lo ≤ rfft_freq fs k) (hhi : rfft_freq fs k ≤ hi)
    (hnz : dft_mag d k ≠ 0) : ∃ f p, masked_peak d fs lo hi = some (f, p) := by
  rw [masked_peak]
  set bins := (List.range (4096 / 2 + 1)).filter
    (fun k => decide (lo ≤ rfft_freq fs k ∧ rfft_freq fs k ≤ hi)) with hbins
  set mags := bins.map (dft_mag d) with hmags
  have hmem : k ∈ bins := (mem_mask_bins fs lo hi k).mpr ⟨hk, hlo, hhi⟩
  have hne : bins ≠ [] := List.ne_nil_of_mem hmem
  have hmm : dft_mag d k ∈ mags := List.mem_map_of_mem (dft_mag d) hmem
  have hpos : 0 < np_max mags :=
    lt_of_lt_of_le (lt_of_le_of_ne (dft_mag_nonneg d k) (Ne.symm hnz))
      (le_np_max mags _ hmm)
  rw [if_pos ⟨hne, hpos⟩]
  exact ⟨_, _, rfl⟩

open Classical in
lemma masked_peak_none_of_zero (d : List ℝ) (fs lo hi : ℝ)
    (hz : ∀ k, k ≤ 2048 → lo ≤ rfft_freq fs k → rfft_freq fs k ≤ hi →
      dft_mag d k = 0) : masked_peak d fs lo hi = none := by
  rw [masked_peak]
  set bins := (List.range (4096 / 2 + 1)).filter
    (fun k => decide (lo ≤ rfft_freq fs k ∧ rfft_freq fs k ≤ hi)) with hbins
  set mags := bins.map (dft_mag d) with hmags
  by_cases hne : bins = []
  · rw [if_neg]; simp [hne]
  · rw [if_neg]
    rintro ⟨-, hpos⟩
    have hmne : mags ≠ [] := by simpa [hmags, List.map_eq_nil] using hne
    have : np_max mags ≤ 0 := by
      refine np_max_le mags 0 hmne ?_
      intro m hm
      rcases List.mem_map.mp hm with ⟨k', hk', rfl⟩
      have hb := (mem_mask_bins fs lo hi k').mp (hbins ▸ hk')
      rw [hz k' hb.1 hb.2.1 hb.2.2]
    exact absurd hpos (not_lt.mpr this)

/-! ### Helper lemmas: zero signals through the spectral chain -/

lemma getD_replicate_zero (n i : ℕ) : (List.replicate n (0 : ℝ)).getD i 0 = 0 := by
  rcases Nat.lt_or_ge i n with h | h
  · rw [List.getD_eq_getElem _ _ (by simpa using h), List.getElem_replicate]
  · rw [List.getD_eq_default _ _ (by simpa using h)]

lemma detrend_length (d : List ℝ) : (detrend d).length = d.length := by
  rw [detrend]
  rw [List.length_zipWith, List.length_range, min_self]

lemma detrend_eq_self_of_sums (d : List ℝ)
    (h1 : ∑ n ∈ Finset.range d.length, d.getD n 0 = 0)
    (h2 : ∑ n ∈ Finset.range d.length, (n : ℝ) * d.getD n 0 = 0) :
    detrend d = d := by
  rw [detrend]
  simp only [h1, h2, mul_zero, zero_mul, sub_zero, zero_sub, neg_zero, zero_div,
    zero_mul, zero_add, sub_zero, zero_div]
  apply List.ext_getElem
  · rw [List.length_zipWith, List.length_range, min_self]
  · intro i h1' h2'
    simp

lemma detrend_replicate_zero (n : ℕ) :
    detrend (List.replicate n 0) = List.replicate n (0 : ℝ) := by
  apply detrend_eq_self_of_sums <;>
    simp [getD_replicate_zero]

lemma hanning_length (M : ℕ) : (hanning M).length = M := by
  rw [hanning, List.length_map, List.length_range]

lemma data_final_replicate_zero (n : ℕ) :
    data_final (List.replicate n 0) = List.replicate n (0 : ℝ) := by
  rw [data_final, detrend_replicate_zero]
  apply List.ext_getElem
  · simp [hanning_length]
  · intro i h1 h2
    simp

lemma dft_mag_replicate_zero (n k : ℕ) : dft_mag (List.replicate n 0) k = 0 := by
  rw [dft_mag]
  have hz : ∀ m ∈ Finset.range (min (List.replicate n (0:ℝ)).length 4096),
      (List.replicate n (0:ℝ)).getD m 0 * Real.cos (2 * Real.pi * k * m / 4096) = 0 := by
    intro m _; rw [getD_replicate_zero]; ring
  have hz' : ∀ m ∈ Finset.range (min (List.replicate n (0:ℝ)).length 4096),
      (List.replicate n (0:ℝ)).getD m 0 * Real.sin (2 * Real.pi * k * m / 4096) = 0 := by
    intro m _; rw [getD_replicate_zero]; ring
  rw [Finset.sum_congr rfl hz, Finset.sum_congr rfl hz']
  simp

lemma get_dominant_freq_and_power_zero (n : ℕ) (fs lo hi : ℝ) :
    get_dominant_freq_and_power (List.replicate n 0) fs lo hi = none := by
  rw [get_dominant_freq_and_power]
  rcases Nat.lt_or_ge n 10 with h | h
  · rw [if_pos (by simpa using h)]
  · rw [if_neg (by simpa using not_lt.mpr h), data_final_replicate_zero]
    exact masked_peak_none_of_zero _ fs lo hi
      (fun k _ _ _ => dft_mag_replicate_zero n k)

lemma get_dominant_freq_zero (n : ℕ) (fs lo hi : ℝ) :
    get_dominant_freq (List.replicate n 0) fs lo hi = none := by
  rw [get_dominant_freq, data_final_replicate_zero,
    masked_peak_none_of_zero _ fs lo hi (fun k _ _ _ => dft_mag_replicate_zero n k)]
  rfl

lemma imu_magnitude_replicate_zero (n : ℕ) :
    imu_magnitude (List.replicate n (fun _ => (0 : ℝ))) = List.replicate n 0 := by
  rw [imu_magnitude, List.map_replicate]
  congr 1
  simp

/-! ### Claim C2: sliding-window start positions -/

/-- C2 (counterexample): the claim says a window start `i` is processed
whenever `i + window_samples ≤ signal_length`, so a signal of length exactly
`window_samples = 4000` would have its single full window at `i = 0`
processed; but `range(0, len - window_samples, step_samples)` is empty there,
so no window is processed. -/
theorem C2_counterexample_exact_window :
    0 + 4000 ≤ 4000 ∧ window_starts 4000 4000 500 = [] := by
  exact ⟨by decide, rfl⟩

/-- C2 (amended): the orchestrator processes exactly the multiples of
`step_samples` with `i + window_samples < signal_length` (strictly), in
increasing order; in particular a signal of length exactly `window_samples`
has no window processed. -/
theorem C2_window_positions (n w s : ℕ) (hs : 0 < s) :
    (∀ i, i ∈ window_starts n w s ↔ s ∣ i ∧ i + w < n) ∧
    List.Pairwise (· < ·) (window_starts n w s) := by
  constructor
  · intro i
    rw [window_starts, List.mem_map]
    constructor
    · rintro ⟨j, hj, rfl⟩
      rw [List.mem_range] at hj
      refine ⟨dvd_mul_left s j, ?_⟩
      have h1 : (j + 1) * s ≤ n - w + s - 1 :=
        (Nat.le_div_iff_mul_le hs).mp (Nat.succ_le_of_lt hj)
      rw [add_mul, one_mul] at h1
      generalize j * s = a at *
      omega
    · rintro ⟨⟨j, rfl⟩, hlt⟩
      refine ⟨j, ?_, mul_comm j s⟩
      rw [List.mem_range]
      apply Nat.lt_of_succ_le
      apply (Nat.le_div_iff_mul_le hs).mpr
      rw [Nat.succ_mul, mul_comm j s]
      generalize s * j = a at *
      omega
  · rw [window_starts]
    exact (List.pairwise_lt_range _).map _
      (fun a b hab => (Nat.mul_lt_mul_right hs).mpr hab)

/-- C2 witness: for an 8000-sample signal, `i = 500` is a processed start
position. -/
theorem C2_window_positions_witness :
    500 ∈ window_starts 8000 4000 500 :=
  ((C2_window_positions 8000 4000 500 (by decide)).1 500).mpr (by decide)

/-! ### Claim C3: the power-tie-break classifier -/

/-- C3: under the power-tie-break policy the candidate is an artifact iff a
collision (fundamental or harmonic) exists and
`motion_power * power_ratio_threshold > ppg_power`; with colliding
frequencies, ratio 2.0 and `ppg_power = 10`, `motion_power = 1` is not an
artifact and `motion_power = 6` is. -/
theorem C3_power_tiebreak :
    (∀ pf pp mf mp thr ratio : ℝ,
      artifact_power_tiebreak pf pp mf mp thr ratio ↔
        ((|pf - mf| < thr ∨ |pf - 2 * mf| < thr) ∧ mp * ratio > pp)) ∧
    ¬ artifact_power_tiebreak 2 10 2 1 0.25 2.0 ∧
    artifact_power_tiebreak 2 10 2 6 0.25 2.0 := by
  refine ⟨fun pf pp mf mp thr ratio => ?_, ?_, ?_⟩
  · rw [artifact_power_tiebreak]; tauto
  · rw [artifact_power_tiebreak]; norm_num
  · rw [artifact_power_tiebreak]; norm_num

/-! ### Claim C4: the naive classifier -/

/-- C4: under the naive policy the candidate is an artifact iff
`|ppg_freq - motion_freq| < thr` or `|ppg_freq - 2*motion_freq| < thr`,
with no power condition; `ppg_freq = 2.0`, `motion_freq = 1.0`, `thr = 0.2`
is an artifact via the harmonic condition even though the fundamental does
not collide. -/
theorem C4_naive :
    (∀ pf mf thr : ℝ,
      artifact_naive pf mf thr ↔ (|pf - mf| < thr ∨ |pf - 2 * mf| < thr)) ∧
    artifact_naive 2 1 0.2 ∧ ¬ (|(2 : ℝ) - 1| < 0.2) ∧
    artifact_naive 2 2.05 0.2 := by
  refine ⟨fun pf mf thr => ?_, ?_, ?_, ?_⟩
  · rw [artifact_naive]; tauto
  · rw [artifact_naive]; norm_num
  · norm_num
  · rw [artifact_naive]
    refine Or.inl (Or.inr ?_)
    rw [show |(2 : ℝ) - 2.05| = 0.05 by rw [abs_sub_comm]; rw [abs_of_nonneg] <;> norm_num]
    norm_num

/-! ### Claim C9: the motion magnitude reducer -/

/-- C9: `imu_magnitude` maps sample `t` to `sqrt(x_t² + y_t² + z_t²)`, is
invariant under any permutation of the three axes, and maps the all-zero
window to the all-zero signal. -/
theorem C9_imu_magnitude :
    (∀ (w : List (Fin 3 → ℝ)) (t : ℕ), t < w.length →
      (imu_magnitude w).getD t 0 =
        Real.sqrt (w.getD t (fun _ => 0) 0 ^ 2 + w.getD t (fun _ => 0) 1 ^ 2 +
          w.getD t (fun _ => 0) 2 ^ 2)) ∧
    (∀ (w : List (Fin 3 → ℝ)) (σ : Equiv.Perm (Fin 3)),
      imu_magnitude (w.map (fun v => v ∘ σ)) = imu_magnitude w) ∧
    (∀ n : ℕ, imu_magnitude (List.replicate n (fun _ => 0)) = List.replicate n 0) := by
  refine ⟨?_, ?_, imu_magnitude_replicate_zero⟩
  · intro w t ht
    have hlen : t < (imu_magnitude w).length := by
      rw [imu_magnitude, List.length_map]; exact ht
    rw [List.getD_eq_getElem _ _ hlen, List.getD_eq_getElem _ _ ht]
    simp only [imu_magnitude, List.getElem_map]
    rw [Fin.sum_univ_three]
  · intro w σ
    rw [imu_magnitude, imu_magnitude, List.map_map]
    apply List.map_congr_left
    intro v _
    simp only [Function.comp_apply]
    rw [Equiv.sum_comp σ (fun a => v a ^ 2)]

/-- C9 witness: the pointwise formula at a concrete one-sample window. -/
theorem C9_imu_magnitude_witness :
    (imu_magnitude [fun _ => 0]).getD 0 0 =
      Real.sqrt ((([fun _ => (0:ℝ)] : List (Fin 3 → ℝ)).getD 0 (fun _ => 0)) 0 ^ 2 +
        (([fun _ => (0:ℝ)] : List (Fin 3 → ℝ)).getD 0 (fun _ => 0)) 1 ^ 2 +
        (([fun _ => (0:ℝ)] : List (Fin 3 → ℝ)).getD 0 (fun _ => 0)) 2 ^ 2) :=
  C9_imu_magnitude.1 [fun _ => 0] 0 (by simp)

/-! ### Helper lemmas: the vfinal per-window step -/

lemma gdfp_band (data : List ℝ) (fs lo hi f p : ℝ)
    (h : get_dominant_freq_and_power data fs lo hi = some (f, p)) :
    lo ≤ f ∧ f ≤ hi := by
  rw [get_dominant_freq_and_power] at h
  by_cases hg : data.length < 10
  · rw [if_pos hg] at h; cases h
  · rw [if_neg hg] at h
    rcases masked_peak_eq_some _ fs lo hi f p h with ⟨k, _, hlo, hhi, hf, -⟩
    exact ⟨hf ▸ hlo, hf ▸ hhi⟩

open Classical in
lemma vfinal_window_eq_some (pw : List ℝ) (iw : Option (List (Fin 3 → ℝ))) (b : ℝ)
    (h : vfinal_window pw iw = some b) :
    ∃ pf pp, get_dominant_freq_and_power pw 500 0.8 4.0 = some (pf, pp) ∧
      b = pf * 60 := by
  rw [vfinal_window] at h
  rcases hg : get_dominant_freq_and_power pw 500 0.8 4.0 with - | ⟨pf, pp⟩
  · rw [hg] at h; cases h
  · rw [hg] at h
    simp only at h
    split at h
    · cases h
    · exact ⟨pf, pp, rfl, (Option.some_inj.mp h).symm⟩

lemma vfinal_artifact_false (pf pp : ℝ) (iw : Option (List (Fin 3 → ℝ)))
    (hm : iw = none ∨ ∃ w, iw = some w ∧
      get_dominant_freq_and_power (imu_magnitude w) 500 1.0 3.5 = none) :
    ¬ vfinal_artifact pf pp iw := by
  rcases hm with rfl | ⟨w, rfl, hw⟩
  · exact not_false
  · rw [vfinal_artifact, hw]
    exact not_false

open Classical in
lemma vfinal_window_no_motion (pw : List ℝ) (iw : Option (List (Fin 3 → ℝ)))
    (hm : iw = none ∨ ∃ w, iw = some w ∧
      get_dominant_freq_and_power (imu_magnitude w) 500 1.0 3.5 = none) :
    vfinal_window pw iw =
      (get_dominant_freq_and_power pw 500 0.8 4.0).map (fun fp => fp.1 * 60) := by
  rw [vfinal_window]
  cases hg : get_dominant_freq_and_power pw 500 0.8 4.0 with
  | none => rfl
  | some fp =>
    cases fp with
    | mk pf pp =>
      show (if vfinal_artifact pf pp iw then none else some (pf * 60)) =
        Option.map (fun fp => fp.1 * 60) (some (pf, pp))
      rw [if_neg (vfinal_artifact_false pf pp iw hm)]
      rfl

/-! ### Claim C10: every emitted bpm of the spectral pipeline is in band -/

/-- C10: every bpm value in the output of the `calculate_bpm_vfinal.py`
pipeline lies in `[60*0.8, 60*4.0] = [48, 240]`: candidates are
`ppg_freq * 60` for a peak frequency constrained to the search band. -/
theorem C10_bpm_in_band :
    ∀ (ppg : List ℝ) (iw : Option (List (Fin 3 → ℝ))),
      List.Forall (fun r : ℝ × ℝ => 48 ≤ r.2 ∧ r.2 ≤ 240) (vfinal_pipeline ppg iw) := by
  intro ppg iw
  rw [List.forall_iff_forall_mem]
  intro r hr
  rw [vfinal_pipeline] at hr
  rcases List.mem_filterMap.mp hr with ⟨i, -, hmap⟩
  rcases Option.map_eq_some'.mp hmap with ⟨b, hwin, rfl⟩
  rcases vfinal_window_eq_some _ _ _ hwin with ⟨pf, pp, hg, rfl⟩
  rcases gdfp_band _ _ _ _ _ _ hg with ⟨hlo, hhi⟩
  constructor
  · show (48 : ℝ) ≤ pf * 60
    nlinarith
  · show pf * 60 ≤ (240 : ℝ)
    nlinarith

/-! ### Claim C7: no motion estimate means unconditional acceptance -/

/-- C7: when no motion estimate exists — the record has no IMU signal, or the
motion-band search over the IMU window returns `None` (as it does for an
all-zero IMU window) — the candidate is never flagged as artifact: every
window's candidate is accepted unconditionally. -/
theorem C7_no_motion_accepts :
    (∀ ppg : List ℝ, vfinal_pipeline ppg none =
      (window_starts ppg.length 4000 500).filterMap (fun i =>
        (get_dominant_freq_and_power ((ppg.drop i).take 4000) 500 0.8 4.0).map
          (fun fp => ((i : ℝ) / 500, fp.1 * 60)))) ∧
    (∀ (pw : List ℝ) (w : List (Fin 3 → ℝ)),
      get_dominant_freq_and_power (imu_magnitude w) 500 1.0 3.5 = none →
      vfinal_window pw (some w) =
        (get_dominant_freq_and_power pw 500 0.8 4.0).map (fun fp => fp.1 * 60)) ∧
    (∀ (pw : List ℝ) (n : ℕ),
      vfinal_window pw (some (List.replicate n (fun _ => 0))) =
        (get_dominant_freq_and_power pw 500 0.8 4.0).map (fun fp => fp.1 * 60)) := by
  refine ⟨?_, ?_, ?_⟩
  · intro ppg
    rw [vfinal_pipeline]
    apply List.filterMap_congr
    intro i _
    rw [Option.map_none', vfinal_window_no_motion _ _ (Or.inl rfl), Option.map_map]
    rfl
  · intro pw w hw
    exact vfinal_window_no_motion pw (some w) (Or.inr ⟨w, rfl, hw⟩)
  · intro pw n
    apply vfinal_window_no_motion
    refine Or.inr ⟨_, rfl, ?_⟩
    rw [imu_magnitude_replicate_zero]
    exact get_dominant_freq_and_power_zero n 500 1.0 3.5

/-- C7 witness: a concrete window against a 2-sample all-zero IMU window. -/
theorem C7_no_motion_accepts_witness :
    vfinal_window [] (some (List.replicate 2 (fun _ => 0))) =
      (get_dominant_freq_and_power [] 500 0.8 4.0).map (fun fp => fp.1 * 60) :=
  C7_no_motion_accepts.2.1 [] (List.replicate 2 (fun _ => 0))
    (by rw [imu_magnitude_replicate_zero]
        exact get_dominant_freq_and_power_zero 2 500 1.0 3.5)

/-! ### Helper lemmas: the NLMS loop -/

lemma nlms_iter_succ_right {α : Type} [LinearOrderedField α]
    (p r : List α) (o : ℕ) (rate : α) (w : List α) (start j : ℕ) :
    nlms_iter p r o rate w start (j + 1) =
      (let rw := nlms_ref_window r o (start + j)
       let wj := nlms_iter p r o rate w start j
       nlms_update wj rw rate (p.getD (start + j) 0 - dot wj rw)) := by
  induction j generalizing w start with
  | zero => simp [nlms_iter]
  | succ j ih =>
    show nlms_iter p r o rate _ (start + 1) (j + 1) = _
    rw [ih]
    simp only [nlms_iter]
    have h : start + 1 + j = start + (j + 1) := by omega
    rw [h]

lemma nlms_weights_eq_iter {α : Type} [LinearOrderedField α]
    (p r : List α) (o : ℕ) (rate : α) (k : ℕ) :
    nlms_weights p r o rate k =
      nlms_iter p r o rate (List.replicate o 0) o k := by
  induction k with
  | zero => rfl
  | succ k ih =>
    rw [nlms_iter_succ_right]
    simp only [nlms_weights, ← ih]

lemma nlms_loop_length {α : Type} [LinearOrderedField α]
    (p r : List α) (o : ℕ) (rate : α) (idxs : List ℕ) (w : List α) :
    (nlms_loop p r o rate idxs w).length = idxs.length := by
  induction idxs generalizing w with
  | nil => rfl
  | cons i rest ih => simp [nlms_loop, ih]

lemma nlms_loop_range'_getD {α : Type} [LinearOrderedField α]
    (p r : List α) (o : ℕ) (rate : α) :
    ∀ (k start j : ℕ) (w : List α), j < k →
      (nlms_loop p r o rate (List.range' start k) w).getD j 0 =
        p.getD (start + j) 0 -
          dot (nlms_iter p r o rate w start j) (nlms_ref_window r o (start + j)) := by
  intro k
  induction k with
  | zero => intro start j w h; omega
  | succ k ih =>
    intro start j w hj
    rw [List.range'_succ]
    cases j with
    | zero =>
      rw [nlms_loop, List.getD_cons_zero]
      simp [nlms_iter]
    | succ j =>
      rw [nlms_loop, List.getD_cons_succ]
      rw [ih (start + 1) j _ (by omega)]
      have h : start + 1 + j = start + (j + 1) := by omega
      rw [h]
      rfl

/-! ### Claim C6: the NLMS canceller -/

/-- C6: `adaptive_nlms_filter` keeps the signal length, leaves the first
`order` samples at zero, and for `order ≤ i < n` emits
`primary[i] - dot(w_i, r_i)` with `r_i` the reversed reference slice
`[i-order, i)`, where the weight vector starts at `order` zeros, keeps
length `order`, and after sample `i` becomes
`w + rate / (Σ r_i² + 1e-6) * output[i] * r_i`. -/
theorem C6_nlms (α : Type) [LinearOrderedField α]
    (p r : List α) (o : ℕ) (rate : α)
    (hlen : r.length = p.length) (ho : 1 ≤ o) :
    (adaptive_nlms_filter p r o rate).length = p.length ∧
    (∀ i, i < o → (adaptive_nlms_filter p r o rate).getD i 0 = 0) ∧
    (∀ i, o ≤ i → i < p.length →
      (adaptive_nlms_filter p r o rate).getD i 0 =
        p.getD i 0 - dot (nlms_weights p r o rate (i - o)) (nlms_ref_window r o i)) ∧
    nlms_weights p r o rate 0 = List.replicate o 0 ∧
    (∀ k, o + k ≤ p.length → (nlms_weights p r o rate k).length = o) ∧
    (∀ k, o + k < p.length →
      nlms_weights p r o rate (k + 1) =
        nlms_update (nlms_weights p r o rate k) (nlms_ref_window r o (o + k)) rate
          ((adaptive_nlms_filter p r o rate).getD (o + k) 0)) := by
  have hlen_total : (adaptive_nlms_filter p r o rate).length = p.length := by
    rw [adaptive_nlms_filter, List.length_append, List.length_replicate,
      nlms_loop_length, List.length_range']
    omega
  have hout : ∀ i, o ≤ i → i < p.length →
      (adaptive_nlms_filter p r o rate).getD i 0 =
        p.getD i 0 - dot (nlms_weights p r o rate (i - o)) (nlms_ref_window r o i) := by
    intro i hoi hin
    rw [adaptive_nlms_filter,
      List.getD_append_right _ _ _ _ (by rw [List.length_replicate]; omega),
      List.length_replicate]
    have hmin : min o p.length = o := by omega
    rw [hmin]
    rw [nlms_loop_range'_getD p r o rate (p.length - o) o (i - o) _ (by omega)]
    have h : o + (i - o) = i := by omega
    rw [h, nlms_weights_eq_iter]
  refine ⟨hlen_total, ?_, hout, rfl, ?_, ?_⟩
  · intro i hio
    rcases Nat.lt_or_ge i (min o p.length) with h | h
    · rw [adaptive_nlms_filter,
        List.getD_append _ _ _ _ (by rw [List.length_replicate]; exact h)]
      rw [List.getD_eq_getElem _ _ (by simpa using h), List.getElem_replicate]
    · apply List.getD_eq_default
      omega
  · intro k
    induction k with
    | zero =>
      intro _
      show (List.replicate o (0 : α)).length = o
      rw [List.length_replicate]
    | succ k ih =>
      intro hk
      show (nlms_update _ _ _ _).length = o
      rw [nlms_update, List.length_zipWith, ih (by omega)]
      rw [nlms_ref_window, List.length_reverse, List.length_take, List.length_drop]
      omega
  · intro k hk
    show nlms_update _ _ _ _ = _
    rw [hout (o + k) (by omega) hk]
    have h : o + k - o = k := by omega
    rw [h]

/-- C6 witness: the output formula at a concrete rational input
(`primary = [1, 2]`, `reference = [1, 1]`, `order = 1`, `rate = 1`, `i = 1`). -/
theorem C6_nlms_witness :
    (adaptive_nlms_filter (α := ℚ) [1, 2] [1, 1] 1 1).getD 1 0 =
      ([1, 2] : List ℚ).getD 1 0 -
        dot (nlms_weights [1, 2] [1, 1] 1 1 0) (nlms_ref_window [1, 1] 1 1) :=
  (C6_nlms ℚ [1, 2] [1, 1] 1 1 rfl (by decide)).2.2.1 1 (by decide) (by decide)

/-! ### Helper lemmas: the 12-sample test window -/

lemma getD_map_range (f : ℕ → ℝ) (m n : ℕ) (h : n < m) :
    ((List.range m).map f).getD n 0 = f n := by
  rw [List.getD_eq_getElem _ _ (by simpa using h), List.getElem_map, List.getElem_range]

lemma getD_zipWith_mul (l1 l2 : List ℝ) (n : ℕ) (h1 : n < l1.length)
    (h2 : n < l2.length) :
    (List.zipWith (· * ·) l1 l2).getD n 0 = l1.getD n 0 * l2.getD n 0 := by
  rw [List.getD_eq_getElem _ _ (by rw [List.length_zipWith]; omega),
    List.getElem_zipWith, List.getD_eq_getElem _ _ h1, List.getD_eq_getElem _ _ h2]

lemma hanning_getD (M n : ℕ) (h : n < M) :
    (hanning M).getD n 0 =
      1 / 2 - 1 / 2 * Real.cos (2 * Real.pi * (n : ℝ) / ((M : ℝ) - 1)) :=
  getD_map_range _ M n h

lemma c5_window_length : c5_window.length = 12 := by
  rw [c5_window, List.length_map, List.length_range]

lemma c5_window_getD (n : ℕ) (h : n < 12) : c5_window.getD n 0 = c5_fun n :=
  getD_map_range c5_fun 12 n h

lemma c5_detrend : detrend c5_window = c5_window := by
  apply detrend_eq_self_of_sums
  · rw [c5_window_length,
      Finset.sum_congr rfl (fun n hn => c5_window_getD n (Finset.mem_range.mp hn))]
    norm_num [Finset.sum_range_succ, c5_fun]
  · rw [c5_window_length, Finset.sum_congr rfl (fun n hn => by
      rw [c5_window_getD n (Finset.mem_range.mp hn)])]
    norm_num [Finset.sum_range_succ, c5_fun]

lemma c5_data_final_length : (data_final c5_window).length = 12 := by
  rw [data_final, c5_detrend, List.length_zipWith, c5_window_length, hanning_length]
  omega

lemma c5_data_final_getD (n : ℕ) (h : n < 12) :
    (data_final c5_window).getD n 0 =
      c5_fun n * (1 / 2 - 1 / 2 * Real.cos (2 * Real.pi * (n : ℝ) / 11)) := by
  rw [data_final, c5_detrend, c5_window_length,
    getD_zipWith_mul _ _ n (by rw [c5_window_length]; exact h)
      (by rw [hanning_length]; exact h),
    c5_window_getD n h, hanning_getD 12 n h]
  norm_num

lemma c5_cos_term (n : ℕ) :
    Real.cos (2 * Real.pi * ((2048 : ℕ) : ℝ) * (n : ℝ) / 4096) = (-1) ^ n := by
  have h : 2 * Real.pi * ((2048 : ℕ) : ℝ) * (n : ℝ) / 4096 = (n : ℝ) * Real.pi := by
    push_cast; ring
  rw [h]
  simpa using Real.cos_nat_mul_pi_sub 0 n

lemma c5_dft_pos : 0 < dft_mag (data_final c5_window) 2048 := by
  rw [dft_mag, c5_data_final_length]
  have hmin : min 12 4096 = 12 := by norm_num
  rw [hmin]
  apply Real.sqrt_pos.mpr
  have hterm : ∀ n ∈ Finset.range 12,
      (data_final c5_window).getD n 0 * Real.cos (2 * Real.pi * ((2048 : ℕ) : ℝ) * n / 4096) =
        c5_fun n * (1 / 2 - 1 / 2 * Real.cos (2 * Real.pi * (n : ℝ) / 11)) * (-1) ^ n := by
    intro n hn
    rw [c5_data_final_getD n (Finset.mem_range.mp hn), c5_cos_term n]
  have hCpos : 0 < ∑ n ∈ Finset.range 12,
      (data_final c5_window).getD n 0 * Real.cos (2 * Real.pi * ((2048 : ℕ) : ℝ) * n / 4096) := by
    rw [Finset.sum_congr rfl hterm]
    have h2 : Real.cos (2 * Real.pi * ((2 : ℕ) : ℝ) / 11) < 1 := by
      have := Real.cos_lt_cos_of_nonneg_of_le_pi (x := 0)
        (y := 2 * Real.pi * ((2 : ℕ) : ℝ) / 11) le_rfl
        (by push_cast; nlinarith [Real.pi_pos])
        (by push_cast; positivity)
      rw [Real.cos_zero] at this
      exact this
    have h5 : Real.cos (2 * Real.pi * ((5 : ℕ) : ℝ) / 11) ≤ 1 := Real.cos_le_one _
    have h8 : Real.cos (2 * Real.pi * ((8 : ℕ) : ℝ) / 11) ≤ 1 := Real.cos_le_one _
    rw [Finset.sum_range_succ, Finset.sum_range_succ, Finset.sum_range_succ,
      Finset.sum_range_succ, Finset.sum_range_succ, Finset.sum_range_succ,
      Finset.sum_range_succ, Finset.sum_range_succ, Finset.sum_range_succ,
      Finset.sum_range_succ, Finset.sum_range_succ, Finset.sum_range_succ,
      Finset.sum_range_zero]
    norm_num [c5_fun]
    push_cast at h2 h5 h8 ⊢
    nlinarith
  nlinarith [sq_nonneg (∑ n ∈ Finset.range 12,
    (data_final c5_window).getD n 0 * Real.sin (2 * Real.pi * ((2048 : ℕ) : ℝ) * n / 4096))]

/-! ### Claim C5: the spectral peak extractor -/

/-- C5: `get_dominant_freq_and_power` returns `None` for windows shorter than
10 samples; for longer windows, if some rfft bin inside the band has nonzero
magnitude (after detrend, Hann taper and zero-padded 4096-point rfft) it
returns the frequency/magnitude pair of an in-band bin of maximum in-band
magnitude, and if every in-band bin has zero magnitude it returns `None`; the
all-zero window of any length returns `None` for any band. -/
theorem C5_spectral_peak :
    (∀ (xs : List ℝ) (fs lo hi : ℝ), xs.length < 10 →
      get_dominant_freq_and_power xs fs lo hi = none) ∧
    (∀ (xs : List ℝ) (fs lo hi : ℝ), 10 ≤ xs.length →
      (∃ k, k ≤ 2048 ∧ lo ≤ rfft_freq fs k ∧ rfft_freq fs k ≤ hi ∧
        dft_mag (data_final xs) k ≠ 0) →
      ∃ k, k ≤ 2048 ∧ lo ≤ rfft_freq fs k ∧ rfft_freq fs k ≤ hi ∧
        get_dominant_freq_and_power xs fs lo hi =
          some (rfft_freq fs k, dft_mag (data_final xs) k) ∧
        ∀ k', k' ≤ 2048 → lo ≤ rfft_freq fs k' → rfft_freq fs k' ≤ hi →
          dft_mag (data_final xs) k' ≤ dft_mag (data_final xs) k) ∧
    (∀ (xs : List ℝ) (fs lo hi : ℝ), 10 ≤ xs.length →
      (∀ k, k ≤ 2048 → lo ≤ rfft_freq fs k → rfft_freq fs k ≤ hi →
        dft_mag (data_final xs) k = 0) →
      get_dominant_freq_and_power xs fs lo hi = none) ∧
    (∀ (n : ℕ) (fs lo hi : ℝ),
      get_dominant_freq_and_power (List.replicate n 0) fs lo hi = none) := by
  refine ⟨?_, ?_, ?_, get_dominant_freq_and_power_zero⟩
  · intro xs fs lo hi hlen
    rw [get_dominant_freq_and_power, if_pos hlen]
  · rintro xs fs lo hi hlen ⟨k, hk, hlo, hhi, hnz⟩
    rw [get_dominant_freq_and_power, if_neg (not_lt.mpr hlen)]
    rcases masked_peak_isSome (data_final xs) fs lo hi k hk hlo hhi hnz with ⟨f, p, hsome⟩
    rcases masked_peak_eq_some _ _ _ _ _ _ hsome with
      ⟨k', hk', hlo', hhi', hf, hp, _, hmax⟩
    refine ⟨k', hk', hlo', hhi', ?_, fun k'' h1 h2 h3 => hp ▸ hmax k'' h1 h2 h3⟩
    rw [hsome, hf, hp]
  · intro xs fs lo hi hlen hz
    rw [get_dominant_freq_and_power, if_neg (not_lt.mpr hlen)]
    exact masked_peak_none_of_zero _ fs lo hi hz

/-- C5 witness: a 3-sample window (too short), the 12-sample test window over
the full band `[0, 250]` (peak found), a 10-sample window over the empty band
`[2, 1]` (no in-band energy), and a 17-sample all-zero window. -/
theorem C5_spectral_peak_witness :
    get_dominant_freq_and_power [1, 1, 1] 500 0.8 4.0 = none ∧
    (get_dominant_freq_and_power c5_window 500 0 250).isSome = true ∧
    get_dominant_freq_and_power (List.replicate 10 1) 500 2 1 = none ∧
    get_dominant_freq_and_power (List.replicate 17 0) 500 0.8 4.0 = none := by
  refine ⟨C5_spectral_peak.1 [1, 1, 1] 500 0.8 4.0 (by simp), ?_, ?_,
    C5_spectral_peak.2.2.2 17 500 0.8 4.0⟩
  · rcases C5_spectral_peak.2.1 c5_window 500 0 250 (by rw [c5_window_length]; omega)
      ⟨2048, le_rfl, by norm_num [rfft_freq], by norm_num [rfft_freq],
        ne_of_gt c5_dft_pos⟩ with ⟨k, -, -, -, heq, -⟩
    rw [heq]
    rfl
  · exact C5_spectral_peak.2.2.1 (List.replicate 10 1) 500 2 1 (by simp)
      (fun k _ h2 h1 => absurd (h2.trans h1) (by norm_num))

/-! ### Claim C8: the peak-counting window rule -/

lemma get_motion_freq_band (iw : List (Fin 3 → ℝ)) (f : ℝ)
    (h : get_motion_freq iw = some f) : 1 ≤ f ∧ f ≤ 4 := by
  rw [get_motion_freq] at h
  rcases Option.map_eq_some'.mp h with ⟨⟨f', p⟩, hmp, rfl⟩
  rcases masked_peak_eq_some _ _ _ _ _ _ hmp with ⟨k, _, hlo, hhi, hf, -⟩
  constructor
  · calc (1 : ℝ) = 1.0 := by norm_num
    _ ≤ rfft_freq 500 k := hlo
    _ = f' := hf.symm
  · calc f' = rfft_freq 500 k := hf
    _ ≤ 4.0 := hhi
    _ = 4 := by norm_num

lemma motion_bpm_of_ne_zero (iw : Option (List (Fin 3 → ℝ))) (mb : ℝ)
    (h : motion_bpm_of iw = some mb) : mb ≠ 0 := by
  cases iw with
  | none => rw [motion_bpm_of, Option.none_bind] at h; cases h
  | some w =>
    rw [motion_bpm_of, Option.some_bind] at h
    rcases Option.map_eq_some'.mp h with ⟨f, hg, rfl⟩
    have hband := get_motion_freq_band w f hg
    have : (0 : ℝ) < f * 60 := by nlinarith [hband.1]
    exact ne_of_gt this

lemma peaks_motion_eq_spec (iw : Option (List (Fin 3 → ℝ))) :
    peaks_motion_bpm iw = motion_bpm_of iw := by
  cases iw with
  | none => rfl
  | some w =>
    cases hg : get_motion_freq w with
    | none => simp [peaks_motion_bpm, motion_bpm_of, hg]
    | some f =>
      have hne : f ≠ 0 := by
        have := (get_motion_freq_band w f hg).1
        intro h0; rw [h0] at this; linarith
      simp [peaks_motion_bpm, motion_bpm_of, hg, hne]

open Classical in
lemma peaks_validated_eq_spec (pw : List ℝ) (iw : Option (List (Fin 3 → ℝ))) :
    peaks_validated ((instant_bpms pw).filter (fun b => decide (50 ≤ b ∧ b ≤ 240)))
      (peaks_motion_bpm iw) = surviving_bpms pw iw := by
  rw [peaks_motion_eq_spec, surviving_bpms]
  cases hmb : motion_bpm_of iw with
  | none => rfl
  | some mb =>
    show peaks_validated _ (some mb) = _
    rw [peaks_validated, if_pos (motion_bpm_of_ne_zero iw mb hmb)]

open Classical in
/-- C8: a window of the peak-counting pipeline contributes a record iff at
least 2 instantaneous BPMs (from consecutive peaks detected with minimum
distance `int(60/bpm_max*fs) = 125` samples and prominence 0.1) lie in
`[50, 240]` and, when a motion-derived BPM exists, differ from it by more
than 15 BPM; the emitted value is the median of those survivors. -/
theorem C8_peak_counting :
    (∀ (pw : List ℝ) (iw : Option (List (Fin 3 → ℝ))),
      peaks_window pw iw =
        if 2 ≤ (surviving_bpms pw iw).length then
          some (np_median (surviving_bpms pw iw))
        else none) ∧
    (MIN_DISTANCE_SAMPLES : ℝ) = 500 * 60 / 240 := by
  constructor
  · intro pw iw
    simp only [peaks_window]
    by_cases hp : (find_peaks pw MIN_DISTANCE_SAMPLES 0.1).length < 2
    · rw [if_pos hp]
      have hinst : (instant_bpms pw).length ≤ 1 := by
        simp only [instant_bpms, List.length_map, List.length_zip, List.length_tail]
        omega
      have hs : (surviving_bpms pw iw).length ≤ 1 := by
        rw [surviving_bpms]
        cases motion_bpm_of iw with
        | none => exact le_trans (List.length_filter_le _ _) hinst
        | some mb =>
          exact le_trans (List.length_filter_le _ _)
            (le_trans (List.length_filter_le _ _) hinst)
      rw [if_neg (by omega)]
    · rw [if_neg hp]
      by_cases hc : (instant_bpms pw).filter (fun b => decide (50 ≤ b ∧ b ≤ 240)) = []
      · rw [if_pos hc]
        have hs : surviving_bpms pw iw = [] := by
          rw [surviving_bpms]
          cases motion_bpm_of iw with
          | none => exact hc
          | some mb => rw [hc]; rfl
        rw [hs, if_neg (by norm_num)]
      · rw [if_neg hc, peaks_validated_eq_spec pw iw]
  · rw [MIN_DISTANCE_SAMPLES]
    norm_num

/-! ### The end-to-end pure-tone scenario

At 500 Hz the 2 Hz tone has period 250 samples, so the 500-sample window
step shifts each window by exactly two periods: all eight extracted windows
are equal as lists, and with the all-zero IMU no window is ever flagged.
The pipeline therefore emits either 0 or 8 rows, one per window start. -/

lemma filterMap_some_eq_map {α β : Type} (f : α → β) (l : List α) :
    l.filterMap (fun a => some (f a)) = l.map f := by
  induction l with
  | nil => rfl
  | cons x xs ih => simp [List.filterMap_cons, ih]

lemma tone_signal_length : tone_signal.length = 8000 := by
  rw [tone_signal, List.length_map, List.length_range]

lemma tone_window_eq (j : ℕ) (hj : j < 8) :
    (tone_signal.drop (j * 500)).take 4000 = tone_signal.take 4000 := by
  apply List.ext_getElem
  · simp [tone_signal_length]
    omega
  · intro n h1 h2
    simp only [List.getElem_take, List.getElem_drop]
    have hn : n < 4000 := by
      simpa [tone_signal_length] using h2
    simp only [tone_signal, List.getElem_map, List.getElem_range]
    have hang : 2 * Real.pi * 2 * ((j * 500 + n : ℕ) : ℝ) / 500 =
        2 * Real.pi * 2 * (n : ℝ) / 500 + ((2 * j : ℕ) : ℤ) * (2 * Real.pi) := by
      push_cast
      ring
    rw [hang, Real.sin_add_int_mul_two_pi]

lemma zero_imu_window (i : ℕ) (hi : i ≤ 4000) :
    (zero_imu.drop i).take 4000 = List.replicate 4000 (fun _ => (0 : ℝ)) := by
  rw [zero_imu, List.drop_replicate, List.take_replicate]
  congr 1
  omega

lemma get_dominant_freq_band (data : List ℝ) (fs lo hi f : ℝ)
    (h : get_dominant_freq data fs lo hi = some f) : lo ≤ f ∧ f ≤ hi := by
  rw [get_dominant_freq] at h
  rcases Option.map_eq_some'.mp h with ⟨⟨f', p⟩, hmp, rfl⟩
  rcases masked_peak_eq_some _ _ _ _ _ _ hmp with ⟨k, _, hlo, hhi, hf, -⟩
  exact ⟨hf ▸ hlo, hf ▸ hhi⟩

lemma fft1_artifact_false (pf : ℝ) (iw : Option (List (Fin 3 → ℝ)))
    (hm : iw = none ∨ ∃ w, iw = some w ∧
      get_dominant_freq (imu_magnitude w) 500 1.0 3.5 = none) :
    ¬ fft1_artifact pf iw := by
  rcases hm with rfl | ⟨w, rfl, hw⟩
  · exact not_false
  · rw [fft1_artifact, hw]
    exact not_false

open Classical in
lemma fft1_window_no_motion (pw : List ℝ) (iw : Option (List (Fin 3 → ℝ)))
    (hm : iw = none ∨ ∃ w, iw = some w ∧
      get_dominant_freq (imu_magnitude w) 500 1.0 3.5 = none) :
    fft1_window pw iw =
      (get_dominant_freq pw 500 0.8 3.0).map (fun pf => pf * 60) := by
  rw [fft1_window]
  cases hg : get_dominant_freq pw 500 0.8 3.0 with
  | none => rfl
  | some pf =>
    show (if fft1_artifact pf iw then none else some (pf * 60)) =
      Option.map (fun pf => pf * 60) (some pf)
    rw [if_neg (fft1_artifact_false pf iw hm)]
    rfl

lemma fft1_tone_pipeline_eq :
    fft1_pipeline tone_signal (some zero_imu) = [] ∨
    ∃ b : ℝ, 48 ≤ b ∧ b ≤ 180 ∧
      fft1_pipeline tone_signal (some zero_imu) =
        (window_starts 8000 4000 500).map (fun (i : ℕ) => ((i : ℝ) / 500, b)) := by
  have hstarts : window_starts 8000 4000 500 =
      [0, 500, 1000, 1500, 2000, 2500, 3000, 3500] := by decide
  have hcongr : fft1_pipeline tone_signal (some zero_imu) =
      (window_starts 8000 4000 500).filterMap (fun (i : ℕ) =>
        (fft1_window (tone_signal.take 4000)
            (some (List.replicate 4000 (fun _ => 0)))).map
          (fun b => ((i : ℝ) / 500, b))) := by
    rw [fft1_pipeline, tone_signal_length]
    apply List.filterMap_congr
    intro i hi
    rw [hstarts] at hi
    have hwin : ∀ j : ℕ, j < 8 → i = j * 500 →
        (fft1_window ((tone_signal.drop i).take 4000)
            ((some zero_imu).map (fun m => (m.drop i).take 4000))).map
          (fun b => ((i : ℝ) / 500, b)) =
        (fft1_window (tone_signal.take 4000)
            (some (List.replicate 4000 (fun _ => 0)))).map
          (fun b => ((i : ℝ) / 500, b)) := by
      rintro j hj rfl
      rw [Option.map_some', tone_window_eq j hj, zero_imu_window _ (by omega)]
    fin_cases hi
    · exact hwin 0 (by norm_num) rfl
    · exact hwin 1 (by norm_num) rfl
    · exact hwin 2 (by norm_num) rfl
    · exact hwin 3 (by norm_num) rfl
    · exact hwin 4 (by norm_num) rfl
    · exact hwin 5 (by norm_num) rfl
    · exact hwin 6 (by norm_num) rfl
    · exact hwin 7 (by norm_num) rfl
  have hnm : fft1_window (tone_signal.take 4000)
      (some (List.replicate 4000 (fun _ => 0))) =
      (get_dominant_freq (tone_signal.take 4000) 500 0.8 3.0).map (fun pf => pf * 60) :=
    fft1_window_no_motion _ _ (Or.inr ⟨_, rfl, by
      rw [imu_magnitude_replicate_zero]
      exact get_dominant_freq_zero 4000 500 1.0 3.5⟩)
  cases hg : get_dominant_freq (tone_signal.take 4000) 500 0.8 3.0 with
  | none =>
    left
    rw [hcongr]
    apply List.filterMap_eq_nil_iff.mpr
    intro a _
    rw [hnm, hg]
    rfl
  | some pf =>
    right
    rcases get_dominant_freq_band _ _ _ _ _ hg with ⟨hlo, hhi⟩
    refine ⟨pf * 60, by nlinarith, by nlinarith, ?_⟩
    rw [hcongr]
    have hfun : ∀ (i : ℕ), i ∈ window_starts 8000 4000 500 →
        (fft1_window (tone_signal.take 4000)
            (some (List.replicate 4000 (fun _ => 0)))).map
          (fun b => ((i : ℝ) / 500, b)) = some ((i : ℝ) / 500, pf * 60) := by
      intro i _
      rw [hnm, hg]
      rfl
    rw [List.filterMap_congr hfun]
    exact filterMap_some_eq_map (fun (i : ℕ) => ((i : ℝ) / 500, pf * 60)) _

end FiltroPpg
